import Mathlib

/-!
Verification of the data-validation and aggregation pipeline of
`uploadfile.py` (Ramadan campaign dashboard).

The embedding below translates the pipeline part of the script
(lines 17-64 and the aggregation expressions of the chart section)
into executable Lean definitions:

* column-header normalization  (line 26),
* required-column schema check (lines 29-32),
* date coercion                (lines 34-39),
* engagement repair            (line 43),
* the `df is not None` gate between cleaning and chart rendering
  (lines 30/32/39/55/58/61 and 64),
* the group-by/sum/sort aggregations (lines 93-94 and 157-158).

External library calls are modelled as follows.  `pd.read_csv` is modelled
as a line/comma splitter that raises `EmptyDataError` when the byte stream
holds no non-blank line, and `ParserError` when a data row is wider than the
header (pandas pads narrower rows with NaN, modelled as the empty cell).
The date grammar of `pd.to_datetime` is modelled as ISO `YYYY-MM-DD`
parsing; the numeric grammar of `pd.to_numeric` as optional-sign integer
parsing.  `DataFrame.sort_values` with its default `kind` is a numpy
quicksort whose tie order carries no guarantee; it is modelled here by
`List.insertionSort`, and only tie-order-invariant properties (entry
multiset, descending order, lengths, takes and sums) are asserted of the
sorted results.  `groupby` with its default `sort=True` yields the distinct
keys in ascending order, each paired with the fold over its group.
-/

namespace Ramadan

/-! ### Header normalization (line 26): strip, then lower, then replace space by underscore -/

/-- Embeds `.str.strip()`: drop whitespace from both ends of a character list. -/
def stripChars (cs : List Char) : List Char :=
  ((cs.dropWhile Char.isWhitespace).reverse.dropWhile Char.isWhitespace).reverse

/-- Embeds the space-to-underscore replacement on a single character. -/
def underscoreChar (c : Char) : Char :=
  if c = ' ' then '_' else c

/-- Embeds line 26: strip, then lowercase, then replace spaces by underscores. -/
def normalize (s : String) : String :=
  ⟨((stripChars s.data).map Char.toLower).map underscoreChar⟩

/-- The per-character action of `normalize` after stripping: lowercase,
then replace a space by an underscore. -/
def normChar (c : Char) : Char :=
  underscoreChar (Char.toLower c)

/-! ### Tables and pipeline errors -/

/-- A parsed comma-separated table: a header row and data rows of cells. -/
structure Table where
  headers : List String
  rows : List (List String)
deriving DecidableEq

/-- The error taxonomy of the upload pipeline.  The script surfaces
`pd.errors.EmptyDataError` (line 53), `pd.errors.ParserError` (line 56), the
missing-column message (line 31) and the date-conversion message (line 38).
The generic `except Exception` branch (line 59) is unreachable in this model
because every modelled step is total. -/
inductive PipelineError where
  | emptyInput
  | malformedTable
  | schemaError (msg : String)
  | dateCoercion
deriving DecidableEq

/-! ### Parsing (line 21): model of `pd.read_csv` -/

/-- Splits a character list on a separator; mirrors `String.splitOn` but
stays on `List Char` so that all parsing is kernel-computable. -/
def splitOnChar (sep : Char) : List Char → List (List Char)
  | [] => [[]]
  | c :: cs =>
    match splitOnChar sep cs, decide (c = sep) with
    | r, true => [] :: r
    | x :: xs, false => (c :: x) :: xs
    | [], false => [[c]]

/-- Embeds `pd.read_csv` (line 21): the first non-blank line is the header,
the remaining non-blank lines are data rows.  An input with no non-blank
line raises `EmptyDataError`; a data row wider than the header raises
`ParserError`; a narrower row is padded with empty cells (pandas fills
missing trailing fields with NaN). -/
def parseCsv (raw : String) : Except PipelineError Table :=
  let lines := (splitOnChar '\n' raw.data).filter (fun l => l ≠ [])
  match lines with
  | [] => .error .emptyInput
  | header :: rest =>
    let hs := (splitOnChar ',' header).map (fun cs => (⟨cs⟩ : String))
    let rows := rest.map (fun l => (splitOnChar ',' l).map (fun cs => (⟨cs⟩ : String)))
    if rows.all (fun r => r.length ≤ hs.length) then
      .ok { headers := hs,
            rows := rows.map (fun r => r ++ List.replicate (hs.length - r.length) "") }
    else .error .malformedTable

/-! ### Cleaning steps (lines 26-43) -/

/-- Embeds line 26 applied to the whole header row. -/
def normalizeTable (t : Table) : Table :=
  { t with headers := t.headers.map normalize }

/-- Embeds `required_columns` (line 29). -/
def requiredColumns : List String :=
  ["date", "platform", "sentiment", "location", "engagements", "media_type"]

/-- Embeds Python `str.capitalize` as used in line 31: first character
uppercased, the rest lowercased. -/
def capitalize (s : String) : String :=
  match s.data with
  | [] => ""
  | c :: cs => ⟨c.toUpper :: cs.map Char.toLower⟩

/-- Embeds the f-string of line 31.  Note that it joins *all* of
`required_columns`, not the subset that is actually missing. -/
def schemaErrorMsg : String :=
  "Error: Missing one or more required columns after cleaning. Please ensure your CSV has these columns: **"
    ++ String.intercalate ", " (requiredColumns.map capitalize) ++ "**."

/-- Embeds lines 30-32: fail unless every required column is a header. -/
def validateSchema (t : Table) : Except PipelineError Table :=
  if requiredColumns.all (fun c => t.headers.contains c) then .ok t
  else .error (.schemaError schemaErrorMsg)

/-- The cells of the named column, in row order; `[]` when the column is
absent (the pipeline only reads columns after the schema check). -/
def Table.col (t : Table) (name : String) : List String :=
  match t.headers.findIdx? (fun h => h = name) with
  | some i => t.rows.map (fun r => r.getD i "")
  | none => []

/-- Reads a non-empty all-digit character list as a number. -/
def digitsToNat (cs : List Char) : Option Nat :=
  if cs ≠ [] ∧ cs.all Char.isDigit then
    some (cs.foldl (fun a c => a * 10 + (c.toNat - 48)) 0)
  else none

/-- Models the date grammar of `pd.to_datetime` (line 36), restricted to ISO
`YYYY-MM-DD`; a parsed date is encoded as `y*10000 + m*100 + d`. -/
def parseDate (s : String) : Option Nat :=
  match (splitOnChar '-' s.data).map digitsToNat with
  | [some y, some m, some d] =>
    if 1 ≤ m ∧ m ≤ 12 ∧ 1 ≤ d ∧ d ≤ 31 then some (y * 10000 + m * 100 + d) else none
  | _ => none

/-- All-or-nothing traversal: `some` only when every element parses. -/
def mapOption (f : α → Option β) : List α → Option (List β)
  | [] => some []
  | a :: as =>
    match f a, mapOption f as with
    | some b, some bs => some (b :: bs)
    | _, _ => none

/-- Embeds lines 34-39: `pd.to_datetime` on the date column converts the whole
column or raises, in which case the script discards the dataset. -/
def coerceDate (t : Table) : Except PipelineError (List Nat) :=
  match mapOption parseDate (t.col "date") with
  | some ds => .ok ds
  | none => .error .dateCoercion

/-- Models the numeric grammar of `pd.to_numeric` (line 43), restricted to
optionally signed integers. -/
def parseNum (s : String) : Option Int :=
  match s.data with
  | '-' :: cs => (digitsToNat cs).map (fun n => -(n : Int))
  | cs => (digitsToNat cs).map (fun n => (n : Int))

/-- Embeds line 43: `pd.to_numeric` with coercion on the engagements column,
followed by `fillna(0)`.
Every cell that fails numeric coercion becomes 0; parsed values (including
negative ones) are kept as they are. -/
def repairEngagements (t : Table) : List Int :=
  (t.col "engagements").map (fun s => (parseNum s).getD 0)

/-! ### The cleaned dataset -/

/-- One row of the cleaned dataset, restricted to the six required columns
(the script keeps extra columns but never reads them). -/
structure Record where
  date : Nat
  platform : String
  sentiment : String
  location : String
  engagements : Int
  media_type : String
deriving DecidableEq

/-- The cleaned dataset: the rows of the validated table with the date
column parsed and the engagements column repaired. -/
structure Dataset where
  rows : List Record
deriving DecidableEq

/-- Zips the six cleaned columns back into rows. -/
def zipRecords : List Nat → List String → List String → List String → List Int →
    List String → List Record
  | d :: ds, p :: ps, s :: ss, l :: ls, e :: es, m :: ms =>
    { date := d, platform := p, sentiment := s, location := l,
      engagements := e, media_type := m } :: zipRecords ds ps ss ls es ms
  | _, _, _, _, _, _ => []

/-- The whole cleaning pipeline of lines 19-43: parse, normalize headers,
check the schema, coerce the date column, repair the engagements column. -/
def pipeline (raw : String) : Except PipelineError Dataset := do
  let t ← parseCsv raw
  let tv ← validateSchema (normalizeTable t)
  let dates ← coerceDate tv
  let engs := repairEngagements tv
  .ok ⟨zipRecords dates (tv.col "platform") (tv.col "sentiment") (tv.col "location")
        engs (tv.col "media_type")⟩

/-! ### User-visible messages and the rendering gate (lines 19-64, 173-174) -/

/-- A user-visible message emitted through `st.success`, `st.error` or
`st.info`. -/
inductive Msg where
  | success (text : String)
  | error (text : String)
  | info (text : String)
deriving DecidableEq

/-- The `st.error` text of each pipeline error (lines 31, 38, 54, 57). -/
def errorText : PipelineError → String
  | .emptyInput => "The uploaded CSV file is empty. Please upload a file with data."
  | .malformedTable => "Could not parse the CSV file. Please ensure it\x27s a valid CSV format."
  | .schemaError m => m
  | .dateCoercion => "Error: \x27Date\x27 column could not be converted to a datetime format. Please check your data."

/-- The `st.success` call of line 22. -/
def uploadedMsg : Msg :=
  .success "CSV file uploaded successfully! Processing data..."

/-- The `st.success` call of line 48. -/
def cleanedMsg : Msg :=
  .success "Data successfully cleaned and prepared for analysis!"

/-- The `st.info` call of line 174. -/
def infoMsg : Msg :=
  .info "Please upload your CSV file above to start analyzing your Ramadan Campaign data."

/-- Embeds lines 19-61: run the cleaning steps on the uploaded bytes,
producing the final value of `df` (`none` on any failure, mirroring the
`df = None` assignments) together with the emitted messages in order. -/
def runUpload (raw : String) : Option Dataset × List Msg :=
  match parseCsv raw with
  | .error e => (none, [.error (errorText e)])
  | .ok t =>
    match validateSchema (normalizeTable t) with
    | .error e => (none, [uploadedMsg, .error (errorText e)])
    | .ok tv =>
      match coerceDate tv with
      | .error e => (none, [uploadedMsg, .error (errorText e)])
      | .ok dates =>
        (some ⟨zipRecords dates (tv.col "platform") (tv.col "sentiment")
                (tv.col "location") (repairEngagements tv) (tv.col "media_type")⟩,
         [uploadedMsg, cleanedMsg])

/-- The rendered page state: the final `df`, the emitted messages, and
whether the chart section was rendered. -/
structure PageOutput where
  df : Option Dataset
  messages : List Msg
  chartsRendered : Bool
deriving DecidableEq

/-- Embeds the whole page flow: line 17 (`df = None` before any upload),
lines 19-61 (the upload branch) and lines 64/173-174 (charts are rendered
exactly when `df is not None`; otherwise the info prompt is shown). -/
def runPage (upload : Option String) : PageOutput :=
  match upload with
  | none => { df := none, messages := [infoMsg], chartsRendered := false }
  | some raw =>
    let r := runUpload raw
    { df := r.1,
      messages := r.2 ++ (if r.1.isSome then [] else [infoMsg]),
      chartsRendered := r.1.isSome }

/-! ### Aggregation (lines 93-94 and 157-158) -/

/-- Descending-by-summed-engagements order used by `sort_values` with
`ascending=False` on the engagements column. -/
def descRel (a b : String × Int) : Prop := b.2 ≤ a.2

instance : DecidableRel descRel := fun a b => inferInstanceAs (Decidable (b.2 ≤ a.2))

instance : IsTotal (String × Int) descRel := ⟨fun a b => Int.le_total b.2 a.2⟩

instance : IsTrans (String × Int) descRel :=
  ⟨fun _ _ _ hab hbc => le_trans hbc hab⟩

/-- Lexicographic comparison of character lists by code point, mirroring
how Python compares the string group keys. -/
def charsLe : List Char → List Char → Bool
  | [], _ => true
  | _ :: _, [] => false
  | a :: as, b :: bs => if a < b then true else if b < a then false else charsLe as bs

/-- Ascending string order used for the group keys (`groupby` with its
default `sort=True` arranges the groups by ascending key). -/
def strRel (a b : String) : Prop := charsLe a.data b.data = true

instance : DecidableRel strRel :=
  fun a b => inferInstanceAs (Decidable (charsLe a.data b.data = true))

theorem charsLe_total (x y : List Char) : charsLe x y = true ∨ charsLe y x = true := by
  induction x generalizing y with
  | nil => exact .inl rfl
  | cons a as ih =>
    cases y with
    | nil => exact .inr rfl
    | cons b bs =>
      rcases lt_trichotomy a b with h | h | h
      · exact .inl (by simp [charsLe, h])
      · subst h
        rcases ih bs with h' | h'
        · exact .inl (by simp [charsLe, h'])
        · exact .inr (by simp [charsLe, h'])
      · exact .inr (by simp [charsLe, h])

theorem charsLe_trans (x y z : List Char) (hxy : charsLe x y = true)
    (hyz : charsLe y z = true) : charsLe x z = true := by
  induction x generalizing y z with
  | nil => rfl
  | cons a as ih =>
    cases y with
    | nil => simp [charsLe] at hxy
    | cons b bs =>
      cases z with
      | nil => simp [charsLe] at hyz
      | cons c cs =>
        rcases lt_trichotomy a b with hab | hab | hab
        · rcases lt_trichotomy b c with hbc | hbc | hbc
          · exact (by simp [charsLe, hab.trans hbc])
          · subst hbc; exact (by simp [charsLe, hab])
          · simp [charsLe, hbc, asymm hbc] at hyz
        · subst hab
          rcases lt_trichotomy a c with hbc | hbc | hbc
          · exact (by simp [charsLe, hbc])
          · subst hbc
            simp only [charsLe, lt_irrefl, if_false] at hxy hyz ⊢
            exact ih bs cs hxy hyz
          · simp [charsLe, hbc, asymm hbc] at hyz
        · simp [charsLe, hab, asymm hab] at hxy

instance : IsTotal String strRel := ⟨fun a b => charsLe_total a.data b.data⟩

instance : IsTrans String strRel :=
  ⟨fun a b c => charsLe_trans a.data b.data c.data⟩

/-- The distinct values of a key column, in ascending order: `groupby` with
its default `sort=True` arranges the groups by ascending key. -/
def groupKeys (rows : List Record) (key : Record → String) : List String :=
  ((rows.map key).dedup).insertionSort strRel

/-- Embeds a `groupby` over a key column followed by summing the
engagements column: each distinct key paired
with the sum of the engagements of its rows. -/
def groupSum (rows : List Record) (key : Record → String) : List (String × Int) :=
  (groupKeys rows key).map
    (fun k => (k, ((rows.filter (fun r => key r = k)).map Record.engagements).sum))

/-- Embeds line 93: group by platform and sum engagements. -/
def platformGroups (d : Dataset) : List (String × Int) :=
  groupSum d.rows Record.platform

/-- Embeds lines 93-94: platform engagement sums sorted descending.  The
program sorts with the pandas default quicksort, which guarantees no tie
order; the stable sort used here is a model choice, so only properties
that do not depend on the tie order may be read off this definition. -/
def platformSums (d : Dataset) : List (String × Int) :=
  (platformGroups d).insertionSort descRel

/-- Embeds line 157: group by location and sum engagements. -/
def locationGroups (d : Dataset) : List (String × Int) :=
  groupSum d.rows Record.location

/-- Embeds line 158: location sums sorted descending, truncated to 5. -/
def top5Locations (d : Dataset) : List (String × Int) :=
  ((locationGroups d).insertionSort descRel).take 5

/-- The number of distinct locations of a dataset. -/
def distinctLocationCount (d : Dataset) : Nat :=
  ((d.rows.map Record.location).dedup).length

/-! ### Concrete inputs used by witnesses and counterexamples -/

/-- A header row with the six required columns and no data row. -/
def headerOnlyCsv : String :=
  "date,platform,sentiment,location,engagements,media_type"

/-- A valid table whose engagements column holds a negative numeric value. -/
def negTable : Table :=
  { headers := requiredColumns,
    rows := [["2024-01-01", "X", "positive", "Jakarta", "-5", "video"]] }

/-- A valid table whose engagements column holds a non-numeric value. -/
def naTable : Table :=
  { headers := requiredColumns,
    rows := [["2024-01-01", "X", "positive", "Jakarta", "N/A", "video"]] }

/-- A normalized table missing only the location column. -/
def missingLocTable : Table :=
  { headers := ["date", "platform", "sentiment", "engagements", "media_type"], rows := [] }

/-- A normalized table missing only the date column. -/
def missingDateTable : Table :=
  { headers := ["platform", "sentiment", "location", "engagements", "media_type"], rows := [] }

/-- A valid table whose date column is fully parseable. -/
def datesTable : Table :=
  { headers := requiredColumns,
    rows := [["2024-03-11", "X", "positive", "Jakarta", "5", "video"],
             ["2024-03-12", "IG", "neutral", "Bandung", "7", "image"]] }

/-- A table in which a single row has an unparseable date among valid ones. -/
def badDateTable : Table :=
  { headers := requiredColumns,
    rows := [["2024-03-11", "X", "positive", "Jakarta", "5", "video"],
             ["not-a-date", "IG", "neutral", "Bandung", "7", "image"]] }

/-- Headers with case and spacing variants of the six required columns. -/
def variantTable : Table :=
  { headers := ["  Date", "PLATFORM", "Sentiment ", "location", "Engagements", "Media Type"],
    rows := [] }

/-! ### Helper lemmas -/

theorem mapOption_isSome (f : α → Option β) :
    ∀ l : List α, (∀ a ∈ l, (f a).isSome) →
    ∃ bs, mapOption f l = some bs ∧ bs.length = l.length
  | [], _ => ⟨[], rfl, rfl⟩
  | a :: as, h => by
    obtain ⟨b, hb⟩ := Option.isSome_iff_exists.mp (h a (List.mem_cons_self a as))
    obtain ⟨bs, hbs, hlen⟩ :=
      mapOption_isSome f as (fun x hx => h x (List.mem_cons_of_mem a hx))
    exact ⟨b :: bs, by simp [mapOption, hb, hbs], by simp [hlen]⟩

theorem mapOption_none (f : α → Option β) :
    ∀ l : List α, (∃ a ∈ l, f a = none) → mapOption f l = none
  | a :: as, h => by
    obtain ⟨x, hx, hfx⟩ := h
    rcases List.mem_cons.mp hx with rfl | hx'
    · simp [mapOption, hfx]
    · unfold mapOption
      rw [mapOption_none f as ⟨x, hx', hfx⟩]
      rcases f a with _ | b <;> rfl

theorem col_length (t : Table) (name : String) (h : name ∈ t.headers) :
    (t.col name).length = t.rows.length := by
  unfold Table.col
  cases hf : t.headers.findIdx? (fun x => x = name) with
  | some i => simp
  | none =>
    rw [List.findIdx?_eq_none_iff] at hf
    simpa using hf name h

/-- A one-row record used to build concrete aggregation datasets. -/
def mkRec (p l : String) (e : Int) : Record :=
  { date := 1, platform := p, sentiment := "s", location := l,
    engagements := e, media_type := "m" }

/-- Seven rows with seven distinct locations and distinct summed
engagements (scenario E of the spec). -/
def dsE : Dataset :=
  ⟨[mkRec "X" "A" 70, mkRec "X" "B" 60, mkRec "X" "C" 50, mkRec "X" "D" 40,
    mkRec "X" "E" 30, mkRec "X" "F" 20, mkRec "X" "G" 10]⟩

theorem sum_filter_not_add (p : α → Bool) (f : α → Int) (l : List α) :
    ((l.filter p).map f).sum + ((l.filter (fun a => !p a)).map f).sum
      = (l.map f).sum := by
  induction l with
  | nil => rfl
  | cons a as ih =>
    by_cases h : p a = true <;> simp [h] <;> omega

theorem sum_over_nodup_keys (key : α → String) (f : α → Int) :
    ∀ ks : List String, ks.Nodup → ∀ l : List α, (∀ a ∈ l, key a ∈ ks) →
    (ks.map (fun k => ((l.filter (fun a => key a = k)).map f).sum)).sum
      = (l.map f).sum := by
  intro ks
  induction ks with
  | nil =>
    intro _ l hl
    have hnil : l = [] :=
      List.eq_nil_iff_forall_not_mem.mpr (fun a ha => by simpa using hl a ha)
    simp [hnil]
  | cons k ks ih =>
    intro hnd l hl
    have hk : k ∉ ks := (List.nodup_cons.mp hnd).1
    have hnd' : ks.Nodup := (List.nodup_cons.mp hnd).2
    have hmap : ks.map (fun k' => ((l.filter (fun a => key a = k')).map f).sum)
        = ks.map (fun k' =>
            (((l.filter (fun a => !decide (key a = k))).filter
              (fun a => key a = k')).map f).sum) := by
      apply List.map_congr_left
      intro k' hk'
      have hne : k' ≠ k := fun h => hk (h ▸ hk')
      rw [List.filter_filter]
      congr 2
      apply List.filter_congr
      intro a _
      by_cases h : key a = k'
      · have : ¬ key a = k := fun hken => hne (by rw [← h, hken])
        simp [h, this, hne]
      · simp [h]
    have hl' : ∀ a ∈ l.filter (fun a => !decide (key a = k)), key a ∈ ks := by
      intro a ha
      obtain ⟨hal, hak⟩ := List.mem_filter.mp ha
      have : key a ≠ k := by simpa using hak
      exact (List.mem_cons.mp (hl a hal)).resolve_left this
    rw [List.map_cons, List.sum_cons, hmap,
      ih hnd' (l.filter (fun a => !decide (key a = k))) hl']
    exact sum_filter_not_add (fun a => decide (key a = k)) f l

theorem not_ws_of_head_drop (p : α → Bool) (l : List α) (x : α)
    (hx : (l.dropWhile p).head? = some x) : p x = false := by
  have h := List.head?_dropWhile_not p l
  rw [hx] at h
  exact h

theorem getLast?_dropWhile (p : α → Bool) :
    ∀ l : List α, l.dropWhile p ≠ [] → (l.dropWhile p).getLast? = l.getLast?
  | [], h => absurd rfl h
  | a :: t, h => by
    by_cases hpa : p a = true
    · rw [List.dropWhile_cons_of_pos hpa] at h ⊢
      rw [getLast?_dropWhile p t h]
      have ht : t ≠ [] := by
        intro he
        rw [he] at h
        exact h rfl
      cases t with
      | nil => exact absurd rfl ht
      | cons b t' => rw [List.getLast?_cons_cons]
    · rw [List.dropWhile_cons_of_neg hpa]

theorem dropWhile_eq_self_of_head (p : α → Bool) (l : List α)
    (h : ∀ x, l.head? = some x → p x = false) : l.dropWhile p = l := by
  cases l with
  | nil => rfl
  | cons a t => exact List.dropWhile_cons_of_neg (by simp [h a rfl])

theorem toNat_ofNat_of_lt {n : Nat} (h : n < 55296) : (Char.ofNat n).toNat = n := by
  have hv : n.isValidChar := Or.inl h
  unfold Char.ofNat
  rw [dif_pos hv]
  rfl

theorem toLower_toNat (c : Char) :
    (Char.toLower c).toNat
      = if 65 ≤ c.toNat ∧ c.toNat ≤ 90 then c.toNat + 32 else c.toNat := by
  by_cases h : 65 ≤ c.toNat ∧ c.toNat ≤ 90
  · have h32 : (Char.ofNat (c.toNat + 32)).toNat = c.toNat + 32 :=
      toNat_ofNat_of_lt (by omega)
    simp [Char.toLower, h, h32]
  · simp [Char.toLower, h]

theorem toLower_eq_self (c : Char) (h : ¬(65 ≤ c.toNat ∧ c.toNat ≤ 90)) :
    Char.toLower c = c := by
  simp [Char.toLower, h]

theorem toLower_idem (c : Char) :
    Char.toLower (Char.toLower c) = Char.toLower c := by
  apply toLower_eq_self
  rw [toLower_toNat c]
  by_cases h : 65 ≤ c.toNat ∧ c.toNat ≤ 90
  · rw [if_pos h]
    omega
  · rw [if_neg h]
    exact h

theorem ws_toNat (c : Char) (h : c.isWhitespace = true) :
    c.toNat = 32 ∨ c.toNat = 9 ∨ c.toNat = 13 ∨ c.toNat = 10 := by
  simp only [Char.isWhitespace, Bool.or_eq_true, decide_eq_true_eq] at h
  rcases h with ((h | h) | h) | h <;> subst h <;> decide

theorem not_ws_toLower (c : Char) (h : c.isWhitespace = false) :
    (Char.toLower c).isWhitespace = false := by
  by_cases hc : 65 ≤ c.toNat ∧ c.toNat ≤ 90
  · have ht : (Char.toLower c).toNat = c.toNat + 32 := by
      rw [toLower_toNat, if_pos hc]
    cases hw : (Char.toLower c).isWhitespace
    · rfl
    · exfalso
      rcases ws_toNat _ hw with h' | h' | h' | h' <;> omega
  · rw [toLower_eq_self c hc]
    exact h

theorem underscoreChar_of_ne (c : Char) (h : c ≠ ' ') : underscoreChar c = c := by
  unfold underscoreChar
  exact if_neg h

theorem not_ws_underscoreChar (c : Char) (h : c.isWhitespace = false) :
    (underscoreChar c).isWhitespace = false := by
  unfold underscoreChar
  split
  · decide
  · exact h

theorem not_ws_normChar (c : Char) (h : c.isWhitespace = false) :
    (normChar c).isWhitespace = false :=
  not_ws_underscoreChar _ (not_ws_toLower _ h)

theorem normChar_idem (c : Char) : normChar (normChar c) = normChar c := by
  by_cases h : Char.toLower c = ' '
  · have h1 : normChar c = '_' := by
      unfold normChar underscoreChar
      rw [if_pos h]
    rw [h1]
    decide
  · have h1 : normChar c = Char.toLower c := underscoreChar_of_ne _ h
    rw [h1]
    unfold normChar
    rw [toLower_idem]
    exact underscoreChar_of_ne _ h

theorem normalize_data (t : String) :
    (normalize t).data = (stripChars t.data).map normChar := by
  show ((stripChars t.data).map Char.toLower).map underscoreChar = _
  rw [List.map_map]
  rfl

theorem head?_stripChars_ws (cs : List Char) (x : Char)
    (hx : (stripChars cs).head? = some x) : x.isWhitespace = false := by
  unfold stripChars at hx
  rw [List.head?_reverse] at hx
  have hne : (cs.dropWhile Char.isWhitespace).reverse.dropWhile Char.isWhitespace ≠ [] := by
    intro h0
    rw [h0] at hx
    simp at hx
  rw [getLast?_dropWhile _ _ hne, List.getLast?_reverse] at hx
  exact not_ws_of_head_drop _ _ _ hx

theorem getLast?_stripChars_ws (cs : List Char) (x : Char)
    (hx : (stripChars cs).getLast? = some x) : x.isWhitespace = false := by
  unfold stripChars at hx
  rw [List.getLast?_reverse] at hx
  exact not_ws_of_head_drop _ _ _ hx

theorem stripChars_eq_self (l : List Char)
    (h1 : ∀ x, l.head? = some x → x.isWhitespace = false)
    (h2 : ∀ x, l.getLast? = some x → x.isWhitespace = false) :
    stripChars l = l := by
  unfold stripChars
  rw [dropWhile_eq_self_of_head _ _ h1]
  rw [dropWhile_eq_self_of_head _ _ (fun x hx => h2 x (by rwa [List.head?_reverse] at hx))]
  exact List.reverse_reverse l

/-! ### Claim theorems -/

/-- Claim C1: date coercion is all-or-nothing.  On a table whose date
column exists, if every date cell parses then `coerceDate` succeeds and
yields one value per input row, and if any date cell fails to parse then
`coerceDate` rejects the whole table with the date-coercion error. -/
theorem c1_coerceDate (t : Table) (hd : "date" ∈ t.headers) :
    ((∀ s ∈ t.col "date", (parseDate s).isSome) →
      ∃ ds, coerceDate t = .ok ds ∧ ds.length = t.rows.length) ∧
    ((∃ s ∈ t.col "date", parseDate s = none) →
      coerceDate t = .error .dateCoercion) := by
  constructor
  · intro h
    obtain ⟨ds, hds, hlen⟩ := mapOption_isSome parseDate _ h
    exact ⟨ds, by simp [coerceDate, hds], by rw [hlen, col_length t _ hd]⟩
  · intro h
    simp [coerceDate, mapOption_none parseDate _ h]

/-- Claim C1, witness: a fully parseable two-row table succeeds with two
dates, and the same table with one unparseable date cell is rejected
entirely. -/
theorem c1_coerceDate_witness :
    (∃ ds, coerceDate datesTable = .ok ds ∧ ds.length = datesTable.rows.length) ∧
    coerceDate badDateTable = .error .dateCoercion :=
  ⟨(c1_coerceDate datesTable (by decide)).1 (by decide),
   (c1_coerceDate badDateTable (by decide)).2 ⟨"not-a-date", by decide, by decide⟩⟩

/-- Claim C5: the all-or-nothing gate between validation and rendering.
The chart section is rendered exactly when the whole pipeline succeeded,
and every pipeline failure leaves the charts unrendered and emits the
corresponding explicit error message. -/
theorem c5_gate (raw : String) :
    ((runPage (some raw)).chartsRendered = true ↔ ∃ d, pipeline raw = .ok d) ∧
    (∀ e, pipeline raw = .error e →
      (runPage (some raw)).chartsRendered = false ∧
      .error (errorText e) ∈ (runPage (some raw)).messages) := by
  unfold runPage runUpload pipeline
  cases hp : parseCsv raw with
  | error e => simp [hp, Bind.bind, Except.bind]
  | ok t =>
    cases hv : validateSchema (normalizeTable t) with
    | error e => simp [hp, hv, Bind.bind, Except.bind]
    | ok tv =>
      cases hc : coerceDate tv with
      | error e => simp [hp, hv, hc, Bind.bind, Except.bind]
      | ok ds => simp [hp, hv, hc, Bind.bind, Except.bind]

/-- Claim C5, witness: the empty upload fails, renders no chart, and shows
the empty-input error message. -/
theorem c5_gate_witness :
    (runPage (some "")).chartsRendered = false ∧
    .error (errorText .emptyInput) ∈ (runPage (some "")).messages :=
  (c5_gate "").2 .emptyInput rfl

/-- Claim C6: header normalization is a total function, and whenever every
required column name is hit by some header under normalization (any letter
case or spacing variant), the schema check succeeds. -/
theorem c6_normalize_validateSchema (t : Table)
    (h : ∀ c ∈ requiredColumns, ∃ s ∈ t.headers, normalize s = c) :
    validateSchema (normalizeTable t) = .ok (normalizeTable t) := by
  unfold validateSchema
  rw [if_pos]
  rw [List.all_eq_true]
  intro c hc
  obtain ⟨s, hs, hn⟩ := h c hc
  have hm : c ∈ (normalizeTable t).headers := by
    rw [normalizeTable]
    exact List.mem_map.mpr ⟨s, hs, hn⟩
  simpa using hm

/-- Claim C6, witness: headers that differ from the required names by
letter case and spacing normalize to them, so the schema check passes. -/
theorem c6_normalize_validateSchema_witness :
    validateSchema (normalizeTable variantTable) = .ok (normalizeTable variantTable) :=
  c6_normalize_validateSchema variantTable (by decide)

/-- Claim C2, counterexample: the claim says every repaired engagements
value is non-negative, but the code keeps negative numeric values as they
are: on a schema-valid table whose engagements cell is the numeric text
`-5`, the repaired column is `[-5]`, which is negative. -/
theorem c2_counterexample :
    validateSchema negTable = .ok negTable ∧
    repairEngagements negTable = [-5] ∧ (-5 : Int) < 0 :=
  ⟨rfl, rfl, by decide⟩

/-- Claim C2, amended: `repairEngagements` is total, preserves the row
count of the engagements column, maps every non-numeric cell to exactly 0
and keeps every numeric cell (including negative ones) at its parsed
value. -/
theorem c2_repairEngagements (t : Table) :
    (repairEngagements t).length = (t.col "engagements").length ∧
    ∀ p ∈ (t.col "engagements").zip (repairEngagements t),
      (parseNum p.1 = none → p.2 = 0) ∧ ∀ n, parseNum p.1 = some n → p.2 = n := by
  refine ⟨by simp [repairEngagements], ?_⟩
  intro p hp
  have hz : (t.col "engagements").zip (repairEngagements t)
      = (t.col "engagements").map (fun s => (s, (parseNum s).getD 0)) := by
    unfold repairEngagements
    induction t.col "engagements" with
    | nil => rfl
    | cons a as ih => simpa using ih
  rw [hz] at hp
  obtain ⟨s, _, rfl⟩ := List.mem_map.mp hp
  constructor
  · intro h
    simp [h]
  · intro n h
    simp [h]

/-- Claim C2, witness: on the table whose engagements cell is the
non-numeric text `N/A`, the repaired value is exactly 0. -/
theorem c2_repairEngagements_witness :
    ("N/A", (0 : Int)) ∈ (naTable.col "engagements").zip (repairEngagements naTable) ∧
    (("N/A", (0 : Int)) : String × Int).2 = 0 :=
  ⟨by decide, ((c2_repairEngagements naTable).2 ("N/A", 0) (by decide)).1 (by decide)⟩

/-- Claim C3, counterexample: the claim says the schema error lists exactly
the missing columns, but the code emits one fixed message joining *all six*
required column names, whichever are missing: a table missing only the
location column and a table missing only the date column produce the same
error text, which names every required column. -/
theorem c3_counterexample :
    validateSchema missingLocTable = .error (.schemaError schemaErrorMsg) ∧
    validateSchema missingDateTable = .error (.schemaError schemaErrorMsg) ∧
    schemaErrorMsg = "Error: Missing one or more required columns after cleaning. Please ensure your CSV has these columns: **Date, Platform, Sentiment, Location, Engagements, Media_type**." :=
  ⟨rfl, rfl, rfl⟩

/-- Claim C3, amended: whenever at least one required column is missing
from the normalized headers, `validateSchema` fails, and the error carries
the fixed message that lists all six required column names capitalized
(present columns included). -/
theorem c3_validateSchema (t : Table) (h : ∃ c ∈ requiredColumns, c ∉ t.headers) :
    validateSchema t = .error (.schemaError schemaErrorMsg) := by
  unfold validateSchema
  rw [if_neg]
  intro hall
  obtain ⟨c, hc, hn⟩ := h
  rw [List.all_eq_true] at hall
  exact hn (by simpa using hall c hc)

/-- Claim C3, witness: the amended theorem applied to the table missing
only the date column. -/
theorem c3_validateSchema_witness :
    validateSchema missingDateTable = .error (.schemaError schemaErrorMsg) :=
  c3_validateSchema missingDateTable ⟨"date", by decide, by decide⟩

/-- Claim C4, counterexample: the claim says a header-only upload halts at
`EmptyInputError`, but `pd.read_csv` raises `EmptyDataError` only when no
line is present: a header-only file with the six required columns parses
into an empty table, passes every cleaning step, and the page renders the
charts from the empty dataset. -/
theorem c4_counterexample :
    pipeline headerOnlyCsv = .ok ⟨[]⟩ ∧
    (runPage (some headerOnlyCsv)).chartsRendered = true :=
  ⟨rfl, rfl⟩

/-- Claim C4, amended: an upload with no content at all halts at
`EmptyInputError` and renders no chart, while a header-only upload with the
required columns produces the empty dataset (and the chart section runs on
it). -/
theorem c4_emptyInput :
    pipeline "" = .error .emptyInput ∧
    (runPage (some "")).chartsRendered = false ∧
    pipeline headerOnlyCsv = .ok ⟨[]⟩ :=
  ⟨rfl, rfl, rfl⟩

/-- Claim C7: `top5Locations` takes the first 5 entries of the
descending-by-sum sort of the per-location engagement sums, its length is
the minimum of 5 and the number of distinct locations (no padding, no
error), it is sorted descending, and every excluded location sum is at
most every included one. -/
theorem c7_top5Locations (d : Dataset) :
    top5Locations d = ((locationGroups d).insertionSort descRel).take 5 ∧
    (top5Locations d).length = min 5 (distinctLocationCount d) ∧
    List.Sorted descRel (top5Locations d) ∧
    ∀ x ∈ ((locationGroups d).insertionSort descRel).drop 5,
      ∀ y ∈ top5Locations d, x.2 ≤ y.2 := by
  refine ⟨rfl, ?_, ?_, ?_⟩
  · simp [top5Locations, locationGroups, groupSum, groupKeys, distinctLocationCount]
  · exact List.Pairwise.sublist (List.take_sublist 5 _)
      (List.sorted_insertionSort descRel _)
  · intro x hx y hy
    exact List.Sorted.rel_of_mem_take_of_mem_drop
      (List.sorted_insertionSort descRel _) hy hx

/-- Claim C7, witness: on seven distinct locations with distinct sums, the
result keeps 5 = min 5 7 entries and the excluded sum 20 is at most the
included sum 70. -/
theorem c7_top5Locations_witness :
    (top5Locations dsE).length = min 5 (distinctLocationCount dsE) ∧
    (("F", (20 : Int)) : String × Int).2 ≤ (("A", (70 : Int)) : String × Int).2 :=
  ⟨(c7_top5Locations dsE).2.1,
   (c7_top5Locations dsE).2.2.2 ("F", 20) (by decide) ("A", 70) (by decide)⟩

/-- Claim C9: conservation of totals.  The sum of the per-platform sums
equals the sum of the repaired engagements column over all rows. -/
theorem c9_conservation (d : Dataset) :
    ((platformSums d).map Prod.snd).sum = (d.rows.map Record.engagements).sum := by
  have h1 : ((platformSums d).map Prod.snd).sum = ((platformGroups d).map Prod.snd).sum :=
    (((List.perm_insertionSort descRel _).map Prod.snd).sum_eq)
  have h2 : (platformGroups d).map Prod.snd
      = (groupKeys d.rows Record.platform).map
          (fun k => ((d.rows.filter (fun r => r.platform = k)).map Record.engagements).sum) := by
    unfold platformGroups groupSum
    simp
  have h3 : ((groupKeys d.rows Record.platform).map
        (fun k => ((d.rows.filter (fun r => r.platform = k)).map Record.engagements).sum)).Perm
      (((d.rows.map Record.platform).dedup).map
        (fun k => ((d.rows.filter (fun r => r.platform = k)).map Record.engagements).sum)) :=
    (List.perm_insertionSort strRel _).map _
  rw [h1, h2, h3.sum_eq]
  exact sum_over_nodup_keys Record.platform Record.engagements
    ((d.rows.map Record.platform).dedup) (List.nodup_dedup _) d.rows
    (fun r hr => List.mem_dedup.mpr (List.mem_map_of_mem Record.platform hr))

/-- Claim C10: header normalization (strip, lowercase, spaces to
underscores) is idempotent on every header string. -/
theorem c10_normalize_idempotent (s : String) :
    normalize (normalize s) = normalize s := by
  have hstrip : stripChars ((stripChars s.data).map normChar)
      = (stripChars s.data).map normChar := by
    apply stripChars_eq_self
    · intro x hx
      rw [List.head?_map] at hx
      obtain ⟨y, hy, rfl⟩ := Option.map_eq_some'.mp hx
      exact not_ws_normChar y (head?_stripChars_ws s.data y hy)
    · intro x hx
      rw [List.getLast?_map] at hx
      obtain ⟨y, hy, rfl⟩ := Option.map_eq_some'.mp hx
      exact not_ws_normChar y (getLast?_stripChars_ws s.data y hy)
  have key : (stripChars ((normalize s).data)).map normChar = (normalize s).data := by
    rw [normalize_data s, hstrip, List.map_map]
    exact List.map_congr_left (fun a _ => normChar_idem a)
  exact String.ext ((normalize_data (normalize s)).trans key)

end Ramadan
